import Mathlib

/-!
Shallow embedding of `src/mnist/main.py` (PyTorch MNIST training script).

The numerical substrate (autograd, Adadelta's tensor arithmetic, the CNN
kernels) is external library code; following the spec's scope it is
abstracted as a `Substrate` record of opaque-to-the-loops functions, while
every piece of control flow and aggregation arithmetic written in
`main.py` itself (the `train` loop, the `test` loop, the epoch loop in
`main`) is translated line by line.  Real-valued quantities are modelled
over `ℚ` (exact arithmetic in place of floating point).
-/

namespace MNIST

/-- Model mode flag: `model.train()` / `model.eval()` toggle the
`nn.Module.training` boolean. -/
inductive Mode where
  | train
  | eval
deriving DecidableEq, Repr

/-- A batch as the loops see it: a list of (input, integer class label)
pairs; `data` and `target` of `main.py` zipped together. -/
abbrev Batch (α : Type) := List (α × ℕ)

/-- Per-sample negative log-likelihood: `F.nll_loss` on one sample is the
negated log-probability of the true class (an out-of-range target index is
read as 0; `main.py` never produces one for MNIST). -/
def nll (output : List ℚ) (target : ℕ) : ℚ := -(output.getD target 0)

/-- Tail of `argmaxIdx`: scan the remaining entries keeping the first index
of the strictly largest value seen so far. -/
def argmaxGo (best : ℚ) (bestIdx : ℕ) (i : ℕ) : List ℚ → ℕ
  | [] => bestIdx
  | v :: vs =>
      if best < v then argmaxGo v i (i + 1) vs else argmaxGo best bestIdx (i + 1) vs

/-- Index of the maximal entry, first occurrence on ties:
`output.argmax(dim=1)` of `main.py` line 70. -/
def argmaxIdx : List ℚ → ℕ
  | [] => 0
  | v :: vs => argmaxGo v 0 1 vs

/-- Summed NLL of one batch under forward function `f`:
`F.nll_loss(output, target, reduction='sum')` (`main.py` line 69). -/
def batchNLLSum {α : Type} (f : α → List ℚ) (b : Batch α) : ℚ :=
  (b.map (fun s => nll (f s.1) s.2)).sum

/-- Number of samples of one batch whose arg-max prediction equals the
label: `pred.eq(target.view_as(pred)).sum()` (`main.py` line 72). -/
def batchCorrect {α : Type} (f : α → List ℚ) (b : Batch α) : ℕ :=
  b.countP (fun s => argmaxIdx (f s.1) == s.2)

/-- The `Net` instance as the loops see it: its parameter collection plus
its `training` mode flag. -/
structure NetState (P : Type) where
  params : P
  mode : Mode
deriving DecidableEq, Repr

/-- The external numerical substrate consumed by the loops: the model's
forward computation, autograd, and the Adadelta update rule.  `forward`
produces per-class log-probabilities; `zeroG` is the zeroed gradient
collection written by `optimizer.zero_grad()`; `gradOf` is the gradient of
the batch-mean NLL produced by `loss.backward()`; `accum` is backward's
accumulate-into-buffers write; `stepFn` is `optimizer.step()` (reading the
current learning rate). -/
structure Substrate (α P G O : Type) where
  forward : P → Mode → α → List ℚ
  zeroG : G
  gradOf : P → Batch α → G
  accum : G → G → G
  stepFn : ℚ → P → G → O → P × O

/-- Mutable state threaded through the training loop: the model, its
gradient buffers, and the optimizer's auxiliary state. -/
structure TrainState (P G O : Type) where
  net : NetState P
  grads : G
  optState : O
deriving DecidableEq, Repr

/-- Body of the training loop for one batch (`main.py` lines 47-51):
`optimizer.zero_grad()`; forward; `F.nll_loss` (mean reduction);
`loss.backward()`; `optimizer.step()`.  Returns the new state and the
batch's loss value (`loss.item()`). -/
def stepBatch {α P G O : Type} (sub : Substrate α P G O) (lr : ℚ)
    (st : TrainState P G O) (b : Batch α) : TrainState P G O × ℚ :=
  let st0 := { st with grads := sub.zeroG }
  let f := sub.forward st0.net.params st0.net.mode
  let lossVal := batchNLLSum f b / (b.length : ℚ)
  let st1 := { st0 with grads := sub.accum st0.grads (sub.gradOf st0.net.params b) }
  let p2o2 := sub.stepFn lr st1.net.params st1.grads st1.optState
  ({ st1 with net := { st1.net with params := p2o2.1 }, optState := p2o2.2 }, lossVal)

/-- Observable events of one training pass, used to state ordering
properties of the loop body. -/
inductive TrainEvent where
  | zeroGrad
  | fwd
  | lossCompute
  | backward
  | optStep
  | report
deriving DecidableEq, Repr

/-- The event block every processed batch performs, in source order
(`main.py` lines 47-51). -/
def stepBlock : List TrainEvent :=
  [TrainEvent.zeroGrad, TrainEvent.fwd, TrainEvent.lossCompute,
   TrainEvent.backward, TrainEvent.optStep]

/-- One progress report of the training loop (`main.py` lines 54-56):
epoch, `batch_idx * len(data)`, `len(train_loader.dataset)`,
`100. * batch_idx / len(train_loader)`, `loss.item()`. -/
structure LogMsg where
  epoch : ℕ
  processed : ℕ
  totalSamples : ℕ
  pct : ℚ
  lossVal : ℚ
deriving DecidableEq, Repr

/-- The `for batch_idx, (data, target) in enumerate(train_loader)` loop of
`train` (`main.py` lines 45-58), with `i` the enumeration index, `K` the
configured `args.log_interval` and `dryRun` the `args.dry_run` flag.
Returns the final state, the printed progress reports in order, and the
event trace.  The `break` on `args.dry_run` sits inside the logging
branch, exactly as in the source. -/
def trainGo {α P G O : Type} (sub : Substrate α P G O) (K : ℕ) (dryRun : Bool)
    (lr : ℚ) (epoch totalSamples numBatches : ℕ) :
    ℕ → TrainState P G O → List (Batch α) →
    TrainState P G O × List LogMsg × List TrainEvent
  | _, st, [] => (st, [], [])
  | i, st, b :: bs =>
      let r := stepBatch sub lr st b
      if i % K == 0 then
        let msg : LogMsg :=
          ⟨epoch, i * b.length, totalSamples, (100 * i : ℚ) / (numBatches : ℚ), r.2⟩
        if dryRun then
          (r.1, [msg], stepBlock ++ [TrainEvent.report])
        else
          let rest := trainGo sub K dryRun lr epoch totalSamples numBatches (i + 1) r.1 bs
          (rest.1, msg :: rest.2.1, stepBlock ++ [TrainEvent.report] ++ rest.2.2)
      else
        let rest := trainGo sub K dryRun lr epoch totalSamples numBatches (i + 1) r.1 bs
        (rest.1, rest.2.1, stepBlock ++ rest.2.2)

/-- Entry of `train`: `model.train()` (`main.py` line 44) sets the mode
flag before the loop. -/
def trainEntry {P G O : Type} (st : TrainState P G O) : TrainState P G O :=
  { st with net := { st.net with mode := Mode.train } }

/-- The `train` function (`main.py` lines 43-58); `K` is
`args.log_interval` and `dryRun` is `args.dry_run`. -/
def train {α P G O : Type} (sub : Substrate α P G O) (K : ℕ) (dryRun : Bool)
    (lr : ℚ) (epoch : ℕ) (st : TrainState P G O) (loader : List (Batch α)) :
    TrainState P G O × List LogMsg × List TrainEvent :=
  trainGo sub K dryRun lr epoch loader.flatten.length loader.length 0 (trainEntry st) loader

/-- Control-run reference state: the training state after processing a
list of batches in order with the per-batch body and no early exit. -/
def stateAt {α P G O : Type} (sub : Substrate α P G O) (lr : ℚ)
    (st : TrainState P G O) (batches : List (Batch α)) : TrainState P G O :=
  batches.foldl (fun s b => (stepBatch sub lr s b).1) st

/-- What one evaluation pass reports (`main.py` lines 76-78): average
loss, correct count, dataset size, and the printed accuracy percentage. -/
structure TestReport where
  avgLoss : ℚ
  correct : ℕ
  total : ℕ
  accuracyPct : ℚ
deriving DecidableEq, Repr

/-- The accumulation loop of `test` (`main.py` lines 66-72): for each
batch, add the batch's summed NLL into `test_loss` and the batch's match
count into `correct`. -/
def testLoop {α : Type} (f : α → List ℚ) (acc : ℚ × ℕ) :
    List (Batch α) → ℚ × ℕ
  | [] => acc
  | b :: bs => testLoop f (acc.1 + batchNLLSum f b, acc.2 + batchCorrect f b) bs

/-- The `test` function (`main.py` lines 61-78): `model.eval()`, the
no-grad accumulation pass, `test_loss /= len(test_loader.dataset)`, and
the reported accuracy `100. * correct / len(test_loader.dataset)`. -/
def test {α P G O : Type} (sub : Substrate α P G O) (st : NetState P)
    (loader : List (Batch α)) : NetState P × TestReport :=
  let st0 : NetState P := { st with mode := Mode.eval }
  let f := sub.forward st0.params st0.mode
  let acc := testLoop f (0, 0) loader
  let n := loader.flatten.length
  (st0, ⟨acc.1 / (n : ℚ), acc.2, n, (100 * (acc.2 : ℚ)) / (n : ℚ)⟩)

/-- The `with torch.no_grad():` context manager (`main.py` line 65) around
a body that may raise: the autograd-enabled flag is set to false for the
body and restored to its previous value on exit, whether the body returns
normally or propagates an error. -/
def withNoGradE {β : Type} (gradEnabled : Bool) (body : Bool → Except Unit β) :
    Bool × Except Unit β :=
  (gradEnabled, body false)

/-- The accumulation loop of `test` over a substrate whose forward pass
may fail (the spec's fatal numeric/data-contract errors): a failing batch
aborts the pass, propagating the error. -/
def testLoopE {α : Type} (f : α → Option (List ℚ)) (acc : ℚ × ℕ) :
    List (Batch α) → Except Unit (ℚ × ℕ)
  | [] => Except.ok acc
  | b :: bs =>
      match b.mapM (fun s => (f s.1).map (fun o => (o, s.2))) with
      | none => Except.error ()
      | some outs =>
          testLoopE f
            (acc.1 + (outs.map (fun p => nll p.1 p.2)).sum,
             acc.2 + outs.countP (fun p => argmaxIdx p.1 == p.2)) bs

/-- The `test` function over a fallible forward pass, making the
autograd-mode flag explicit: `fwd` receives the ambient grad-enabled flag,
the pass body runs under `withNoGradE`, and the restored flag is returned
alongside the (possibly failed) report. -/
def testE {α P : Type} (fwd : Bool → P → Mode → α → Option (List ℚ))
    (gradEnabled : Bool) (st : NetState P) (loader : List (Batch α)) :
    NetState P × Bool × Except Unit TestReport :=
  let st0 : NetState P := { st with mode := Mode.eval }
  let r := withNoGradE gradEnabled
      (fun g => testLoopE (fwd g st0.params st0.mode) (0, 0) loader)
  let n := loader.flatten.length
  match r.2 with
  | Except.error e => (st0, r.1, Except.error e)
  | Except.ok acc =>
      (st0, r.1,
       Except.ok ⟨acc.1 / (n : ℚ), acc.2, n, (100 * (acc.2 : ℚ)) / (n : ℚ)⟩)

/-- Modelled from the spec: `torch.optim.lr_scheduler.StepLR`, constructed
at `main.py` line 148 with `step_size=1`, is library code not part of this
repository's source.  Spec 4.4 describes it as a pure state machine
holding the current step index, the decay factor and the decay interval;
the held base step-size lives in the optimizer and is threaded alongside. -/
structure StepLR where
  stepIndex : ℕ
  gamma : ℚ
  interval : ℕ
deriving DecidableEq, Repr

/-- Modelled from the spec: the scheduler's single operation `advance`
(`scheduler.step()`, `main.py` line 154) multiplies the optimizer's
step-size by the decay factor if the current step index is a multiple of
the decay interval, then increments the step index. -/
def schedAdvance (s : StepLR) (lr : ℚ) : StepLR × ℚ :=
  let lr2 := if s.stepIndex % s.interval == 0 then lr * s.gamma else lr
  ({ s with stepIndex := s.stepIndex + 1 }, lr2)

/-- `n` successive invocations of `schedAdvance`. -/
def schedIter : ℕ → StepLR → ℚ → StepLR × ℚ
  | 0, s, lr => (s, lr)
  | n + 1, s, lr =>
      let r := schedAdvance s lr
      schedIter n r.1 r.2

/-- Observable events of `main`'s epoch loop (`main.py` lines 151-157). -/
inductive MainEvent where
  | trainPass (epoch : ℕ)
  | testPass (epoch : ℕ)
  | schedStep
  | save (file : String)
deriving DecidableEq, Repr

/-- The fixed persistence target of `torch.save` (`main.py` line 157). -/
def savedFileName : String := "mnist_cnn.pt"

/-- State threaded through `main`'s epoch loop: the training state, the
optimizer's current learning rate, and the scheduler. -/
structure RunState (P G O : Type) where
  ts : TrainState P G O
  lr : ℚ
  sched : StepLR
deriving DecidableEq, Repr

/-- One iteration of `main`'s epoch loop (`main.py` lines 151-154):
`train(...)`, then `test(...)`, then `scheduler.step()`. -/
def epochStep {α P G O : Type} (sub : Substrate α P G O) (K : ℕ) (dryRun : Bool)
    (trainLoader testLoader : List (Batch α)) (epoch : ℕ)
    (rs : RunState P G O) : RunState P G O × List MainEvent :=
  let tr := train sub K dryRun rs.lr epoch rs.ts trainLoader
  let te := test sub tr.1.net testLoader
  let sc := schedAdvance rs.sched rs.lr
  (⟨{ tr.1 with net := te.1 }, sc.2, sc.1⟩,
   [MainEvent.trainPass epoch, MainEvent.testPass epoch, MainEvent.schedStep])

/-- The epoch loop `for epoch in range(1, args.epochs + 1)` (`main.py`
line 151), with `n` epochs remaining and `e` the current epoch index. -/
def mainGo {α P G O : Type} (sub : Substrate α P G O) (K : ℕ) (dryRun : Bool)
    (trainLoader testLoader : List (Batch α)) :
    ℕ → ℕ → RunState P G O → RunState P G O × List MainEvent
  | 0, _, rs => (rs, [])
  | n + 1, e, rs =>
      let r := epochStep sub K dryRun trainLoader testLoader e rs
      let rest := mainGo sub K dryRun trainLoader testLoader n (e + 1) r.1
      (rest.1, r.2 ++ rest.2)

/-- The tail of `main` (`main.py` lines 151-157): the epoch loop starting
at epoch 1 followed, when `--save-model` is set, by serializing the model
parameters under the fixed name. -/
def mainRun {α P G O : Type} (sub : Substrate α P G O) (K : ℕ) (dryRun : Bool)
    (epochs : ℕ) (saveModel : Bool) (trainLoader testLoader : List (Batch α))
    (rs : RunState P G O) : RunState P G O × List MainEvent :=
  let r := mainGo sub K dryRun trainLoader testLoader epochs 1 rs
  (r.1, r.2 ++ if saveModel then [MainEvent.save savedFileName] else [])

/-- A small concrete substrate instance (ℕ inputs/params, ℤ gradients,
ℕ optimizer state) used to evaluate the development on concrete runs. -/
def demoSub : Substrate ℕ ℕ ℤ ℕ where
  forward := fun _p _m x => [(x : ℚ), 0]
  zeroG := 0
  gradOf := fun _p b => (b.length : ℤ)
  accum := fun g h => g + h
  stepFn := fun _lr p g o => (p + g.toNat, o + 1)

/-- A concrete net state for concrete runs. -/
def demoNet : NetState ℕ := ⟨0, Mode.train⟩

/-- A concrete training state for concrete runs. -/
def demoTS : TrainState ℕ ℤ ℕ := ⟨demoNet, 0, 0⟩

/-- A concrete evaluation loader: three samples split as 2 + 1. -/
def demoL1 : List (Batch ℕ) := [[(5, 0), (7, 1)], [(9, 0)]]

/-- The same three samples split as 1 + 2. -/
def demoL2 : List (Batch ℕ) := [[(5, 0)], [(7, 1), (9, 0)]]

/-- A loader on which every `demoSub` prediction matches its label. -/
def demoLA : List (Batch ℕ) := [[(5, 0)], [(7, 0)]]

/-- A concrete full-run state for concrete runs (lr 1, gamma 7/10). -/
def demoRS : RunState ℕ ℤ ℕ := ⟨demoTS, 1, ⟨0, 7 / 10, 1⟩⟩

/-! ## Lemmas about the evaluation accumulation -/

theorem batchNLLSum_append {α : Type} (f : α → List ℚ) (b c : Batch α) :
    batchNLLSum f (b ++ c) = batchNLLSum f b + batchNLLSum f c := by
  simp [batchNLLSum]

theorem batchCorrect_append {α : Type} (f : α → List ℚ) (b c : Batch α) :
    batchCorrect f (b ++ c) = batchCorrect f b + batchCorrect f c := by
  simp [batchCorrect, List.countP_append]

theorem testLoop_eq {α : Type} (f : α → List ℚ) :
    ∀ (bs : List (Batch α)) (acc : ℚ × ℕ),
      testLoop f acc bs =
        (acc.1 + batchNLLSum f bs.flatten, acc.2 + batchCorrect f bs.flatten) := by
  intro bs
  induction bs with
  | nil => intro acc; simp [testLoop, batchNLLSum, batchCorrect]
  | cons b bs ih =>
      intro acc
      rw [testLoop, ih]
      simp [List.flatten_cons, batchNLLSum_append, batchCorrect_append]
      constructor
      · ring
      · omega

/-! ## Scheduler lemmas -/

theorem schedIter_interval_one (g : ℚ) :
    ∀ (n i : ℕ) (lr : ℚ), (schedIter n ⟨i, g, 1⟩ lr).2 = lr * g ^ n := by
  intro n
  induction n with
  | zero => intro i lr; simp [schedIter]
  | succ n ih =>
      intro i lr
      rw [schedIter, schedAdvance]
      simp only [Nat.mod_one, beq_self_eq_true, if_true]
      rw [ih]
      ring

/-! ## Orchestrator lemmas -/

theorem mainGo_trace {α P G O : Type} (sub : Substrate α P G O) (K : ℕ) (dryRun : Bool)
    (tl vl : List (Batch α)) :
    ∀ (n e : ℕ) (rs : RunState P G O),
      (mainGo sub K dryRun tl vl n e rs).2 =
        ((List.range n).map (fun k => e + k)).flatMap
          (fun x => [MainEvent.trainPass x, MainEvent.testPass x, MainEvent.schedStep]) := by
  intro n
  induction n with
  | zero => intro e rs; simp [mainGo]
  | succ n ih =>
      intro e rs
      rw [mainGo]
      rw [ih]
      rw [List.range_succ_eq_map]
      simp only [List.map_cons, List.map_map, List.flatMap_cons, Nat.add_zero]
      have h : ((fun k => e + k) ∘ Nat.succ) = fun k => (e + 1) + k := by
        funext k
        simp [Function.comp]
        omega
      rw [h]
      rfl

theorem mainGo_mode {α P G O : Type} (sub : Substrate α P G O) (K : ℕ) (dryRun : Bool)
    (tl vl : List (Batch α)) :
    ∀ (n e : ℕ) (rs : RunState P G O), 0 < n →
      (mainGo sub K dryRun tl vl n e rs).1.ts.net.mode = Mode.eval := by
  intro n
  induction n with
  | zero => intro e rs h; omega
  | succ n ih =>
      intro e rs _
      rw [mainGo]
      rcases Nat.eq_zero_or_pos n with h0 | h0
      · subst h0
        rfl
      · exact ih (e + 1) _ h0

/-! ## Training loop lemmas -/

theorem stateAt_cons {α P G O : Type} (sub : Substrate α P G O) (lr : ℚ)
    (s : TrainState P G O) (b : Batch α) (bs : List (Batch α)) :
    stateAt sub lr s (b :: bs) = stateAt sub lr (stepBatch sub lr s b).1 bs := rfl

theorem trainGo_state {α P G O : Type} (sub : Substrate α P G O) (K : ℕ) (lr : ℚ)
    (epoch T N : ℕ) :
    ∀ (bs : List (Batch α)) (i : ℕ) (s : TrainState P G O),
      (trainGo sub K false lr epoch T N i s bs).1 = stateAt sub lr s bs := by
  intro bs
  induction bs with
  | nil => intro i s; rfl
  | cons b bs ih =>
      intro i s
      rw [trainGo, stateAt_cons]
      by_cases h : (i % K == 0) = true
      · rw [if_pos h]
        exact ih (i + 1) _
      · rw [if_neg h]
        exact ih (i + 1) _

theorem trainGo_msgs {α P G O : Type} (sub : Substrate α P G O) (K : ℕ) (lr : ℚ)
    (epoch T N : ℕ) :
    ∀ (bs : List (Batch α)) (i : ℕ) (s : TrainState P G O),
      (trainGo sub K false lr epoch T N i s bs).2.1 =
        ((List.range bs.length).filter (fun k => (i + k) % K == 0)).map (fun k =>
          ⟨epoch, (i + k) * (bs.getD k []).length, T,
           (100 * ((i + k : ℕ) : ℚ)) / (N : ℚ),
           (stepBatch sub lr (stateAt sub lr s (bs.take k)) (bs.getD k [])).2⟩) := by
  intro bs
  induction bs with
  | nil => intro i s; rfl
  | cons b bs ih =>
      intro i s
      rw [trainGo]
      simp only [List.length_cons]
      rw [List.range_succ_eq_map, List.filter_cons]
      have hp : ((fun k => (i + k) % K == 0) ∘ Nat.succ) =
          (fun k => ((i + 1) + k) % K == 0) := by
        funext k
        simp only [Function.comp]
        rw [show i + Nat.succ k = i + 1 + k from by omega]
      have htail :
          (((List.range bs.length).map Nat.succ).filter (fun k => (i + k) % K == 0)).map
              (fun k =>
                (⟨epoch, (i + k) * ((b :: bs).getD k []).length, T,
                  (100 * ((i + k : ℕ) : ℚ)) / (N : ℚ),
                  (stepBatch sub lr (stateAt sub lr s ((b :: bs).take k))
                    ((b :: bs).getD k [])).2⟩ : LogMsg)) =
            ((List.range bs.length).filter (fun k => ((i + 1) + k) % K == 0)).map
              (fun k =>
                (⟨epoch, ((i + 1) + k) * (bs.getD k []).length, T,
                  (100 * (((i + 1) + k : ℕ) : ℚ)) / (N : ℚ),
                  (stepBatch sub lr
                    (stateAt sub lr (stepBatch sub lr s b).1 (bs.take k))
                    (bs.getD k [])).2⟩ : LogMsg)) := by
        rw [List.filter_map, hp, List.map_map]
        refine List.map_congr_left ?_
        intro k _
        simp only [Function.comp]
        rw [show i + Nat.succ k = i + 1 + k from by omega]
        rfl
      simp only [Nat.add_zero]
      by_cases h : (i % K == 0) = true
      · rw [if_pos h, if_pos h, if_neg Bool.false_ne_true, List.map_cons,
            ih (i + 1) (stepBatch sub lr s b).1, htail]
        rfl
      · rw [if_neg h, if_neg h, ih (i + 1) (stepBatch sub lr s b).1, htail]

theorem trainGo_filter_trace {α P G O : Type} (sub : Substrate α P G O) (K : ℕ)
    (lr : ℚ) (epoch T N : ℕ) :
    ∀ (bs : List (Batch α)) (i : ℕ) (s : TrainState P G O),
      ((trainGo sub K false lr epoch T N i s bs).2.2).filter
          (fun e => e != TrainEvent.report) =
        (List.replicate bs.length stepBlock).flatten := by
  intro bs
  induction bs with
  | nil => intro i s; rfl
  | cons b bs ih =>
      intro i s
      rw [trainGo]
      simp only [List.length_cons]
      rw [List.replicate_succ, List.flatten_cons]
      by_cases h : (i % K == 0) = true
      · rw [if_pos h]
        simp only [Bool.false_eq_true, if_false]
        rw [List.filter_append, List.filter_append, ih (i + 1) _]
        rw [show stepBlock.filter (fun e => e != TrainEvent.report) = stepBlock from by decide]
        rw [show ([TrainEvent.report].filter (fun e => e != TrainEvent.report)) = [] from by decide]
        simp
      · rw [if_neg h]
        rw [List.filter_append, ih (i + 1) _]
        rw [show stepBlock.filter (fun e => e != TrainEvent.report) = stepBlock from by decide]

theorem count_flatten_replicate {γ : Type} [BEq γ] (l : List γ) (a : γ) :
    ∀ n : ℕ, ((List.replicate n l).flatten).count a = n * l.count a := by
  intro n
  induction n with
  | zero => simp
  | succ n ih =>
      rw [List.replicate_succ, List.flatten_cons, List.count_append, ih]
      ring

/-- Computation of `train` in dry-run mode on a nonempty loader: batch 0
always satisfies `0 % K == 0`, so the first batch is processed, one report
is printed, and the `break` fires. -/
theorem train_dry_cons {α P G O : Type} (sub : Substrate α P G O) (K : ℕ)
    (lr : ℚ) (epoch : ℕ) (st : TrainState P G O) (b : Batch α)
    (bs : List (Batch α)) :
    train sub K true lr epoch st (b :: bs) =
      ((stepBatch sub lr (trainEntry st) b).1,
       [⟨epoch, 0 * b.length, (b :: bs).flatten.length,
         (100 * ((0 : ℕ) : ℚ)) / ((((b :: bs).length : ℕ)) : ℚ),
         (stepBatch sub lr (trainEntry st) b).2⟩],
       stepBlock ++ [TrainEvent.report]) := by
  unfold train
  rw [trainGo, if_pos (by simp), if_pos rfl]

/-! ## Claim theorems -/

/-- C1: the mean evaluation loss reported by the evaluation loop
(per-batch losses with sum reduction, accumulated, divided once by the
dataset size) equals the per-sample NLL summed over the whole set divided
by the set size, and two traversals of the same dataset with different
batchings yield the same report (mean loss and accuracy alike). -/
theorem c1_eval_mean_loss_batch_invariance :
    ∀ (α P G O : Type) (sub : Substrate α P G O) (st : NetState P)
      (b1 b2 : List (Batch α)), b1.flatten = b2.flatten →
      test sub st b1 = test sub st b2 ∧
      (test sub st b1).2.avgLoss =
        batchNLLSum (sub.forward st.params Mode.eval) b1.flatten /
          ((b1.flatten.length : ℕ) : ℚ) := by
  intro α P G O sub st b1 b2 h
  constructor
  · simp only [test, testLoop_eq]
    rw [h]
  · simp [test, testLoop_eq]

/-- C2: with the dry-run flag off, every batch the training loop processes
performs exactly the block zero-gradients, forward, loss, backward,
optimizer-step, in that order with no omission, once per batch: erasing
the observational report events, the trace is one such block per batch,
and the optimizer-update count equals the batch count. -/
theorem c2_train_loop_order :
    ∀ (α P G O : Type) (sub : Substrate α P G O) (K : ℕ) (lr : ℚ) (epoch : ℕ)
      (st : TrainState P G O) (loader : List (Batch α)),
      ((train sub K false lr epoch st loader).2.2).filter
          (fun e => e != TrainEvent.report) =
        (List.replicate loader.length stepBlock).flatten ∧
      (train sub K false lr epoch st loader).2.2.count TrainEvent.optStep =
        loader.length := by
  intro α P G O sub K lr epoch st loader
  have h1 : ((train sub K false lr epoch st loader).2.2).filter
        (fun e => e != TrainEvent.report) =
      (List.replicate loader.length stepBlock).flatten :=
    trainGo_filter_trace sub K lr epoch loader.flatten.length loader.length
      loader 0 (trainEntry st)
  refine ⟨h1, ?_⟩
  have h2 : (train sub K false lr epoch st loader).2.2.count TrainEvent.optStep =
      (((train sub K false lr epoch st loader).2.2).filter
        (fun e => e != TrainEvent.report)).count TrainEvent.optStep :=
    (List.count_filter (by decide)).symm
  rw [h2, h1, count_flatten_replicate,
      show stepBlock.count TrainEvent.optStep = 1 from rfl, mul_one]

/-- C3: for every starting step-size, decay factor and epoch count, after
`n` advances of the scheduler (decay interval 1, step index starting at 0)
the effective step-size equals the start value times the decay factor to
the `n`-th power. -/
theorem c3_scheduler_decay (S0 g : ℚ) (n : ℕ) :
    (schedIter n ⟨0, g, 1⟩ S0).2 = S0 * g ^ n :=
  schedIter_interval_one g n 0 S0

/-- C5: with the dry-run flag off, the training loop emits a report
exactly on the batches whose index is a multiple of the cadence `K`, each
report carrying the epoch index, `batch_idx * len(data)` samples
processed, the total sample count, the percent complete and the batch's
loss; and the final loop/model/optimizer state is the plain fold of the
batch body over the loader, independent of `K` — reporting alters no
state. -/
theorem c5_progress_reports :
    ∀ (α P G O : Type) (sub : Substrate α P G O) (K : ℕ) (lr : ℚ) (epoch : ℕ)
      (st : TrainState P G O) (loader : List (Batch α)),
      (train sub K false lr epoch st loader).2.1 =
        ((List.range loader.length).filter (fun i => i % K == 0)).map (fun i =>
          ⟨epoch, i * (loader.getD i []).length, loader.flatten.length,
           (100 * ((i : ℕ) : ℚ)) / (((loader.length : ℕ)) : ℚ),
           (stepBatch sub lr (stateAt sub lr (trainEntry st) (loader.take i))
             (loader.getD i [])).2⟩) ∧
      (train sub K false lr epoch st loader).1 =
        stateAt sub lr (trainEntry st) loader := by
  intro α P G O sub K lr epoch st loader
  constructor
  · have h := trainGo_msgs sub K lr epoch loader.flatten.length loader.length
        loader 0 (trainEntry st)
    simp only [Nat.zero_add] at h
    exact h
  · exact trainGo_state sub K lr epoch loader.flatten.length loader.length
      loader 0 (trainEntry st)

/-- C6: the evaluation loop mutates no model parameter (both in the total
embedding `test` and in the fallible embedding `testE`), the scoped
no-gradient mode is restored on exit whether the pass succeeds or fails
mid-way, and the whole pass consults the forward computation only with
gradient tracking disabled. -/
theorem c6_eval_frame :
    ∀ (α P : Type) (fwd : Bool → P → Mode → α → Option (List ℚ)) (g : Bool)
      (st : NetState P) (loader : List (Batch α)),
      (testE fwd g st loader).1.params = st.params ∧
      (testE fwd g st loader).2.1 = g ∧
      testE fwd g st loader = testE (fun _ => fwd false) g st loader ∧
      ∀ (G O : Type) (sub : Substrate α P G O),
        (test sub st loader).1.params = st.params := by
  intro α P fwd g st loader
  refine ⟨?_, ?_, rfl, fun G O sub => rfl⟩
  · cases h : testLoopE (fwd false st.params Mode.eval) (0, 0) loader <;>
      simp only [testE, withNoGradE, h]
  · cases h : testLoopE (fwd false st.params Mode.eval) (0, 0) loader <;>
      simp only [testE, withNoGradE, h]

/-- C7: the orchestrator executes epochs 1 through E inclusive, each
epoch running the training pass, then the evaluation pass, then one
scheduler advance, strictly in that order with no interleaving or
skipping; only after all E epochs, and only if persistence is requested,
is the model serialized under the fixed name. -/
theorem c7_epoch_orchestration :
    ∀ (α P G O : Type) (sub : Substrate α P G O) (K : ℕ) (dryRun : Bool)
      (epochs : ℕ) (saveModel : Bool) (tl vl : List (Batch α))
      (rs : RunState P G O),
      (mainRun sub K dryRun epochs saveModel tl vl rs).2 =
        ((List.range epochs).map (fun k => 1 + k)).flatMap
          (fun e => [MainEvent.trainPass e, MainEvent.testPass e,
                     MainEvent.schedStep]) ++
        (if saveModel then [MainEvent.save savedFileName] else []) := by
  intro α P G O sub K dryRun epochs saveModel tl vl rs
  simp only [mainRun]
  rw [mainGo_trace]

/-- C8: the reported accuracy equals correct-count over the evaluation-set
size times 100, with correct-count the number of samples whose arg-max
class equals the label accumulated across batches; on an all-match set the
accuracy is 100, on a zero-match set it is 0, and the reported sample
count is the evaluation set's total size. -/
theorem c8_accuracy :
    ∀ (α P G O : Type) (sub : Substrate α P G O) (st : NetState P)
      (loader : List (Batch α)),
      (test sub st loader).2.total = loader.flatten.length ∧
      (test sub st loader).2.correct =
        batchCorrect (sub.forward st.params Mode.eval) loader.flatten ∧
      (test sub st loader).2.accuracyPct =
        (100 * (((batchCorrect (sub.forward st.params Mode.eval)
          loader.flatten : ℕ)) : ℚ)) / ((loader.flatten.length : ℕ) : ℚ) ∧
      (0 < loader.flatten.length →
        (∀ s ∈ loader.flatten,
          argmaxIdx (sub.forward st.params Mode.eval s.1) = s.2) →
        (test sub st loader).2.accuracyPct = 100) ∧
      ((∀ s ∈ loader.flatten,
          ¬ argmaxIdx (sub.forward st.params Mode.eval s.1) = s.2) →
        (test sub st loader).2.accuracyPct = 0) := by
  intro α P G O sub st loader
  have hrep : test sub st loader =
      ({ st with mode := Mode.eval },
       ⟨batchNLLSum (sub.forward st.params Mode.eval) loader.flatten /
          ((loader.flatten.length : ℕ) : ℚ),
        batchCorrect (sub.forward st.params Mode.eval) loader.flatten,
        loader.flatten.length,
        (100 * (((batchCorrect (sub.forward st.params Mode.eval)
          loader.flatten : ℕ)) : ℚ)) / ((loader.flatten.length : ℕ) : ℚ)⟩) := by
    simp only [test, testLoop_eq]
    simp
  refine ⟨by rw [hrep], by rw [hrep], by rw [hrep], ?_, ?_⟩
  · intro hn hall
    rw [hrep]
    have hc : batchCorrect (sub.forward st.params Mode.eval) loader.flatten =
        loader.flatten.length := by
      unfold batchCorrect
      rw [List.countP_eq_length]
      intro a ha
      simpa using hall a ha
    show (100 * (((batchCorrect (sub.forward st.params Mode.eval)
        loader.flatten : ℕ)) : ℚ)) / ((loader.flatten.length : ℕ) : ℚ) = 100
    rw [hc]
    have hz : ((loader.flatten.length : ℕ) : ℚ) ≠ 0 := by
      have hq : (0 : ℚ) < ((loader.flatten.length : ℕ) : ℚ) := by exact_mod_cast hn
      exact ne_of_gt hq
    rw [mul_div_assoc, div_self hz, mul_one]
  · intro hnone
    rw [hrep]
    have hc : batchCorrect (sub.forward st.params Mode.eval) loader.flatten = 0 := by
      unfold batchCorrect
      rw [List.countP_eq_zero]
      intro a ha
      simpa using hnone a ha
    show (100 * (((batchCorrect (sub.forward st.params Mode.eval)
        loader.flatten : ℕ)) : ℚ)) / ((loader.flatten.length : ℕ) : ℚ) = 0
    rw [hc]
    simp

/-- C10: the evaluation loop leaves the model in evaluation mode and does
not restore the previous mode on exit; each training-loop invocation
overwrites the mode at entry (its behavior is independent of the incoming
mode); and after a completed run of at least one epoch the model's final
mode is evaluation mode. -/
theorem c10_mode_not_restored :
    (∀ (α P G O : Type) (sub : Substrate α P G O) (st : NetState P)
       (loader : List (Batch α)), (test sub st loader).1.mode = Mode.eval) ∧
    (∀ (α P G O : Type) (sub : Substrate α P G O) (K : ℕ) (dryRun : Bool)
       (lr : ℚ) (epoch : ℕ) (st : TrainState P G O) (loader : List (Batch α))
       (m : Mode),
       train sub K dryRun lr epoch
           { st with net := { st.net with mode := m } } loader =
         train sub K dryRun lr epoch st loader) ∧
    (∀ (α P G O : Type) (sub : Substrate α P G O) (K : ℕ) (dryRun : Bool)
       (epochs : ℕ) (saveModel : Bool) (tl vl : List (Batch α))
       (rs : RunState P G O), 0 < epochs →
       (mainRun sub K dryRun epochs saveModel tl vl rs).1.ts.net.mode =
         Mode.eval) := by
  refine ⟨fun α P G O sub st loader => rfl, ?_, ?_⟩
  · intro α P G O sub K dryRun lr epoch st loader m
    rfl
  · intro α P G O sub K dryRun epochs saveModel tl vl rs h
    exact mainGo_mode sub K dryRun tl vl epochs 1 rs h

/-- Computation of `train` without dry-run on a single-batch loader. -/
theorem train_nodry_single {α P G O : Type} (sub : Substrate α P G O) (K : ℕ)
    (lr : ℚ) (epoch : ℕ) (st : TrainState P G O) (b : Batch α) :
    (train sub K false lr epoch st [b]).1 = (stepBatch sub lr (trainEntry st) b).1 := by
  unfold train
  rw [trainGo, if_pos (by simp), if_neg Bool.false_ne_true]
  rfl

/-- C4: with the dry-run flag set and a positive log-interval `K`, the
training loop processes at most `K` batches (exactly `min 1 len`, since it
breaks right after the first report), emits exactly that one report, and
its final state equals that of a control run without dry-run on the same
number of leading batches — no further optimizer update is applied. -/
theorem c4_dry_run_partial_progress :
    ∀ (α P G O : Type) (sub : Substrate α P G O) (K : ℕ) (lr : ℚ) (epoch : ℕ)
      (st : TrainState P G O) (loader : List (Batch α)), 0 < K →
      (train sub K true lr epoch st loader).2.2.count TrainEvent.optStep =
        min 1 loader.length ∧
      (train sub K true lr epoch st loader).2.2.count TrainEvent.optStep ≤ K ∧
      (train sub K true lr epoch st loader).2.1.length = min 1 loader.length ∧
      (train sub K true lr epoch st loader).1 =
        (train sub K false lr epoch st
          (loader.take
            ((train sub K true lr epoch st loader).2.2.count
              TrainEvent.optStep))).1 := by
  intro α P G O sub K lr epoch st loader hK
  cases loader with
  | nil => exact ⟨rfl, Nat.zero_le K, rfl, rfl⟩
  | cons b bs =>
      rw [train_dry_cons sub K lr epoch st b bs]
      have hcnt : ((stepBlock ++ [TrainEvent.report]).count TrainEvent.optStep) = 1 :=
        by decide
      refine ⟨?_, ?_, ?_, ?_⟩
      · show (stepBlock ++ [TrainEvent.report]).count TrainEvent.optStep =
          min 1 (b :: bs).length
        rw [hcnt, List.length_cons]
        omega
      · show (stepBlock ++ [TrainEvent.report]).count TrainEvent.optStep ≤ K
        rw [hcnt]
        exact hK
      · show (1 : ℕ) = min 1 (b :: bs).length
        rw [List.length_cons]
        omega
      · show (stepBatch sub lr (trainEntry st) b).1 =
          (train sub K false lr epoch st
            ((b :: bs).take
              ((stepBlock ++ [TrainEvent.report]).count TrainEvent.optStep))).1
        rw [hcnt]
        exact (train_nodry_single sub K lr epoch st b).symm

/-- C9: with the dry-run flag set, on a nonempty loader the training loop
processes exactly one batch and applies exactly one optimizer update
before terminating, emitting one report, independently of the (positive)
log-interval, because batch index 0 always satisfies the logging condition
and the break fires right after the first report. -/
theorem c9_dry_run_exactly_one :
    ∀ (α P G O : Type) (sub : Substrate α P G O) (K K2 : ℕ) (lr : ℚ)
      (epoch : ℕ) (st : TrainState P G O) (b : Batch α) (bs : List (Batch α)),
      0 < K →
      (train sub K true lr epoch st (b :: bs)).2.2.count TrainEvent.optStep = 1 ∧
      (train sub K true lr epoch st (b :: bs)).2.1.length = 1 ∧
      (train sub K true lr epoch st (b :: bs)).1 =
        (stepBatch sub lr (trainEntry st) b).1 ∧
      train sub K true lr epoch st (b :: bs) =
        train sub K2 true lr epoch st (b :: bs) := by
  intro α P G O sub K K2 lr epoch st b bs hK
  rw [train_dry_cons sub K lr epoch st b bs, train_dry_cons sub K2 lr epoch st b bs]
  refine ⟨?_, rfl, rfl, rfl⟩
  show (stepBlock ++ [TrainEvent.report]).count TrainEvent.optStep = 1
  decide

/-! ## Witnesses -/

/-- Witness for C1: a three-sample dataset split 2+1 and 1+2 yields the
same evaluation report, whose mean loss is the whole-set NLL sum over the
set size. -/
theorem c1_witness :
    demoL1.flatten = demoL2.flatten ∧
    (test demoSub demoNet demoL1 = test demoSub demoNet demoL2 ∧
     (test demoSub demoNet demoL1).2.avgLoss =
       batchNLLSum (demoSub.forward demoNet.params Mode.eval) demoL1.flatten /
         ((demoL1.flatten.length : ℕ) : ℚ)) :=
  ⟨by decide,
   c1_eval_mean_loss_batch_invariance ℕ ℕ ℤ ℕ demoSub demoNet demoL1 demoL2
     (by decide)⟩

/-- Witness for C4 at log-interval 10 on a two-batch loader. -/
theorem c4_witness :
    0 < 10 ∧
    ((train demoSub 10 true 1 1 demoTS demoL1).2.2.count TrainEvent.optStep =
        min 1 demoL1.length ∧
     (train demoSub 10 true 1 1 demoTS demoL1).2.2.count TrainEvent.optStep ≤ 10 ∧
     (train demoSub 10 true 1 1 demoTS demoL1).2.1.length = min 1 demoL1.length ∧
     (train demoSub 10 true 1 1 demoTS demoL1).1 =
       (train demoSub 10 false 1 1 demoTS
         (demoL1.take
           ((train demoSub 10 true 1 1 demoTS demoL1).2.2.count
             TrainEvent.optStep))).1) :=
  ⟨by decide,
   c4_dry_run_partial_progress ℕ ℕ ℤ ℕ demoSub 10 1 1 demoTS demoL1 (by decide)⟩

/-- Witness for C8 on a loader where every prediction matches its label:
accuracy 100. -/
theorem c8_witness :
    0 < demoLA.flatten.length ∧
    (∀ s ∈ demoLA.flatten,
      argmaxIdx (demoSub.forward demoNet.params Mode.eval s.1) = s.2) ∧
    (test demoSub demoNet demoLA).2.accuracyPct = 100 :=
  ⟨by decide, by decide,
   (c8_accuracy ℕ ℕ ℤ ℕ demoSub demoNet demoLA).2.2.2.1 (by decide) (by decide)⟩

/-- Witness for C9: dry run with log-intervals 10 and 3 on the same
two-batch loader. -/
theorem c9_witness :
    0 < 10 ∧
    ((train demoSub 10 true 1 1 demoTS
        ([(5, 0), (7, 1)] :: [[(9, 0)]])).2.2.count TrainEvent.optStep = 1 ∧
     (train demoSub 10 true 1 1 demoTS
        ([(5, 0), (7, 1)] :: [[(9, 0)]])).2.1.length = 1 ∧
     (train demoSub 10 true 1 1 demoTS ([(5, 0), (7, 1)] :: [[(9, 0)]])).1 =
       (stepBatch demoSub 1 (trainEntry demoTS) [(5, 0), (7, 1)]).1 ∧
     train demoSub 10 true 1 1 demoTS ([(5, 0), (7, 1)] :: [[(9, 0)]]) =
       train demoSub 3 true 1 1 demoTS ([(5, 0), (7, 1)] :: [[(9, 0)]])) :=
  ⟨by decide,
   c9_dry_run_exactly_one ℕ ℕ ℤ ℕ demoSub 10 3 1 1 demoTS [(5, 0), (7, 1)]
     [[(9, 0)]] (by decide)⟩

/-- Witness for C10: after a one-epoch run the model is left in
evaluation mode. -/
theorem c10_witness :
    0 < 1 ∧
    (mainRun demoSub 10 false 1 false demoL1 demoL1 demoRS).1.ts.net.mode =
      Mode.eval :=
  ⟨by decide,
   c10_mode_not_restored.2.2 ℕ ℕ ℤ ℕ demoSub 10 false 1 false demoL1 demoL1
     demoRS (by decide)⟩

end MNIST
